import Mathlib

/-!
Shallow embedding of `src/osm_relation_id.py` (class `OSM_RelationID_Finder`).

The lookup table `self.g_osm_relation_id` is a Python dict of dicts of dicts;
Python dicts (3.7+) are insertion-ordered with unique keys, so they are
modelled as ordered association lists `List (String × α)` together with the
dict operations the source uses: lookup / `in` (`dfind?`), assignment
(`dinsert`), `dict.update` and `{**a, **b}` (`dupdate`), `.keys()` (`dkeys`)
and `dict(ChainMap(*maps))` (`chainDict`).

Python `str.lower` / `str.startswith` are modelled character-wise on the
string data (`strLower`, `startswith`); the repository's keys are ASCII,
where `Char.toLower` agrees with Python's lower-casing.
-/

set_option autoImplicit false

namespace OSMRid

/-- Model of Python `str.lower()`: lower-case every character. -/
def strLower (s : String) : String := String.mk (s.data.map Char.toLower)

/-- Model of Python `s.startswith(p)`: `p` is a prefix of `s`. -/
def startswith (s p : String) : Bool := List.isPrefixOf p.data s.data

/-- Python dict lookup `d[k]` (also the `k in d` test via `Option.isSome`):
the first binding with the given key. -/
def dfind? {α : Type} : List (String × α) → String → Option α
  | [], _ => none
  | p :: rest, k => if p.1 = k then some p.2 else dfind? rest k

/-- Python dict assignment `d[k] = v`: overwrite in place when the key is
present (keeping its position), append otherwise. -/
def dinsert {α : Type} : List (String × α) → String → α → List (String × α)
  | [], k, v => [(k, v)]
  | p :: rest, k, v => if p.1 = k then (k, v) :: rest else p :: dinsert rest k v

/-- Python `d.keys()` in iteration order. -/
def dkeys {α : Type} (d : List (String × α)) : List String := d.map Prod.fst

/-- Python `d.update(m)` (and the dict built by `{**d, **m}`): assign every
binding of `m` into `d` in order. -/
def dupdate {α : Type} (d m : List (String × α)) : List (String × α) :=
  m.foldl (fun a p => dinsert a p.1 p.2) d

/-- A `StateEntry`: city key (lower-cased city name) to relation-id string. -/
abbrev Entry := List (String × String)

/-- A `CountryEntry`: state key (lower-cased state name) to `Entry`. -/
abbrev CountryEntry := List (String × Entry)

/-- The table `self.g_osm_relation_id`: country key to `CountryEntry`. -/
abbrev Table := List (String × CountryEntry)

/-- `collections.ChainMap(*maps)` lookup: the first map containing the key
wins (`ChainMap.__getitem__` scans `self.maps` front to back). -/
def chainLookup : List Entry → String → Option String
  | [], _ => none
  | m :: rest, k =>
    match dfind? m k with
    | some v => some v
    | none => chainLookup rest k

/-- `dict(ChainMap(*maps))` (line 209): an empty dict updated with the maps
in reverse order, so keys appear as first seen in that traversal and the
value of a duplicated key comes from the earliest map in `maps`. -/
def chainDict (maps : List Entry) : Entry :=
  maps.reverse.foldl dupdate []

/-- The observable outcome of one `find_osm_relation_id` call: the returned
string of line 215 (carrying the echoed query name and the stored id), the
candidate list printed before a `None` return (state suggestions of lines
193-197, city suggestions of lines 224-227), or the `ValueError` raised. -/
inductive ResolveResult where
  | found (name : String) (rid : String)
  | suggestStates (states : List String)
  | suggestCities (cities : List (String × String))
  | errEmptyName
  | errCountryNotFound
  | errStateNotFound
  | errCityNotFound
deriving DecidableEq

/-- Lines 214-227 (step 3 city search over a scope `cites_dict`): exact key
`name.lower()` returns the stored id; otherwise the keys starting with
`name.lower()` are suggested with their ids, and `CityNotFound` is raised
when there are none. -/
def citySearch (name : String) (cites_dict : Entry) : ResolveResult :=
  match dfind? cites_dict (strLower name) with
  | some rid => .found name rid
  | none =>
    let start_with_city := (dkeys cites_dict).filter (fun k => startswith k (strLower name))
    if start_with_city.isEmpty then .errCityNotFound
    else .suggestCities
      (start_with_city.filterMap (fun k => (dfind? cites_dict k).map (fun v => (k, v))))

/-- `find_osm_relation_id` (lines 134-227) over a table `t`. `state = none`
models Python `state=None`; `some ""` is falsy in Python, hence also takes
the all-states union branch. -/
def find_osm_relation_id (t : Table) (name country : String) (state : Option String) :
    ResolveResult :=
  if name = "" then .errEmptyName
  else
    match dfind? t (strLower country) with
    | none => .errCountryNotFound
    | some country_dict =>
      match state with
      | none => citySearch name (chainDict (country_dict.map Prod.snd))
      | some s =>
        if s = "" then citySearch name (chainDict (country_dict.map Prod.snd))
        else
          match dfind? country_dict (strLower s) with
          | some cites_dict => citySearch name cites_dict
          | none =>
            let start_with_state :=
              (dkeys country_dict).filter (fun k => startswith k (strLower s))
            if start_with_state.isEmpty then .errStateNotFound
            else .suggestStates start_with_state

/-- The scope the city search of steps 4-5 runs over: the chosen state's
dict when a truthy state is given (and is an exact key), the `ChainMap`
union of all states otherwise. -/
def searchScope (t : Table) (country : String) (state : Option String) : Option Entry :=
  match dfind? t (strLower country) with
  | none => none
  | some country_dict =>
    match state with
    | none => some (chainDict (country_dict.map Prod.snd))
    | some s =>
      if s = "" then some (chainDict (country_dict.map Prod.snd))
      else dfind? country_dict (strLower s)

/-- One parsed row of the input csv of `read_country_rid`;
`state_name = none` models a NaN cell. -/
structure RowRecord where
  country_name : String
  state_name : Option String
  city_name : String
  city_id : String
deriving DecidableEq

/-- `pandas.Series.unique`: first occurrences, in order. -/
def uniqueFirst {α : Type} [DecidableEq α] (l : List α) : List α :=
  l.foldl (fun acc x => if x ∈ acc then acc else acc ++ [x]) []

/-- Lines 79-80: the distinct state names of the frame, dropping NaN cells
(and, per `str(i) != 'nan'`, a state literally named "nan"). -/
def statesOf (rows : List RowRecord) : List String :=
  (uniqueFirst (rows.filterMap (fun r => r.state_name))).filter (fun s => s ≠ "nan")

/-- Lines 86-95 for one state: `dict(zip(lower-cased city names, city ids))`
over the state's rows, then the sentinel entry `"<state-lower>_state" → ""`
assigned afterwards. -/
def stateEntryOf (rows : List RowRecord) (state : String) : Entry :=
  let df_state := rows.filter (fun r => r.state_name = some state)
  let cityPairs := df_state.foldl (fun acc r => dinsert acc (strLower r.city_name) r.city_id) []
  dinsert cityPairs (strLower state ++ "_state") ""

/-- `read_country_rid` (lines 58-97) over already-parsed rows: the first
row's country name (original casing, for reporting) and the country dict
keyed by lower-cased state names. `none` models the crash on an empty frame
(`unique()[0]` raises). -/
def read_country_rid (rows : List RowRecord) : Option (String × CountryEntry) :=
  match rows with
  | [] => none
  | r :: _ =>
    some (r.country_name,
      (statesOf rows).foldl (fun acc s => dinsert acc (strLower s) (stateEntryOf rows s)) [])

/-- `update_country` (lines 99-114): `{**self.g_osm_relation_id, **country_dict}`
where `country_dict` is the single-entry dict `{country.lower(): entry}`. -/
def update_country (t : Table) (rows : List RowRecord) : Table :=
  match read_country_rid rows with
  | none => t
  | some cr => dupdate t [(strLower cr.1, cr.2)]

/-- `available_country` (line 56): `list(self.g_osm_relation_id.keys())`. -/
def available_country (t : Table) : List String := dkeys t

/-- The finder object's mutable state: the field `self.g_osm_relation_id`. -/
structure Finder where
  g_osm_relation_id : Table
deriving DecidableEq

/-- The `find_osm_relation_id` method as a state transformer on the finder
object: the body of lines 171-227 only ever reads `self.g_osm_relation_id`
(lines 176, 183, 185, 207, 212), so the post-state is the pre-state. -/
def find_osm_relation_id_method (st : Finder) (name country : String) (state : Option String) :
    ResolveResult × Finder :=
  (find_osm_relation_id st.g_osm_relation_id name country state, st)

/-- Forget the original-cased query name echoed inside a found-result. -/
def eraseEcho : ResolveResult → ResolveResult
  | .found _ rid => .found "" rid
  | r => r

/-! ### Dictionary lemmas -/

theorem dfind?_dinsert_self {α : Type} (d : List (String × α)) (k : String) (v : α) :
    dfind? (dinsert d k v) k = some v := by
  induction d with
  | nil => simp [dinsert, dfind?]
  | cons p rest ih =>
    by_cases h : p.1 = k
    · simp [dinsert, h, dfind?]
    · simp [dinsert, h, dfind?, ih]

theorem dfind?_dinsert_ne {α : Type} (d : List (String × α)) (k : String) (v : α)
    (k' : String) (h : k' ≠ k) : dfind? (dinsert d k v) k' = dfind? d k' := by
  induction d with
  | nil => simp [dinsert, dfind?, Ne.symm h]
  | cons p rest ih =>
    by_cases h2 : p.1 = k
    · simp [dinsert, h2, dfind?, Ne.symm h]
    · simp [dinsert, h2, dfind?, ih]

theorem dkeys_cons {α : Type} (p : String × α) (d : List (String × α)) :
    dkeys (p :: d) = p.1 :: dkeys d := rfl

theorem dkeys_dinsert {α : Type} (d : List (String × α)) (k : String) (v : α) :
    dkeys (dinsert d k v) = if k ∈ dkeys d then dkeys d else dkeys d ++ [k] := by
  induction d with
  | nil => simp [dinsert, dkeys]
  | cons p rest ih =>
    by_cases h : p.1 = k
    · simp [dinsert, h, dkeys_cons]
    · simp only [dinsert, if_neg h, dkeys_cons, ih, List.mem_cons]
      by_cases hm : k ∈ dkeys rest
      · simp [hm]
      · simp [hm, Ne.symm h]

theorem dfind?_eq_none_of_not_mem {α : Type} {d : List (String × α)} {k : String}
    (h : k ∉ dkeys d) : dfind? d k = none := by
  induction d with
  | nil => rfl
  | cons p rest ih =>
    simp only [dkeys_cons, List.mem_cons, not_or] at h
    simp [dfind?, Ne.symm h.1, ih h.2]

theorem mem_of_dfind?_eq_some {α : Type} {d : List (String × α)} {k : String} {v : α}
    (h : dfind? d k = some v) : (k, v) ∈ d := by
  induction d with
  | nil => simp [dfind?] at h
  | cons p rest ih =>
    by_cases h2 : p.1 = k
    · simp only [dfind?, if_pos h2, Option.some.injEq] at h
      have hp : (k, v) = p := by
        cases p
        simp_all
      rw [hp]
      exact List.mem_cons_self _ _
    · simp only [dfind?, if_neg h2] at h
      exact List.mem_cons_of_mem _ (ih h)

theorem mem_dkeys_of_mem {α : Type} {d : List (String × α)} {p : String × α}
    (h : p ∈ d) : p.1 ∈ dkeys d := List.mem_map.mpr ⟨p, h, rfl⟩

theorem mem_of_mem_dinsert {α : Type} {d : List (String × α)} {k : String} {v : α}
    {x : String × α} (h : x ∈ dinsert d k v) : x ∈ d ∨ x = (k, v) := by
  induction d with
  | nil => simp [dinsert] at h; exact Or.inr h
  | cons p rest ih =>
    by_cases h2 : p.1 = k
    · simp only [dinsert, if_pos h2, List.mem_cons] at h
      rcases h with h | h
      · exact Or.inr h
      · exact Or.inl (List.mem_cons_of_mem _ h)
    · simp only [dinsert, if_neg h2, List.mem_cons] at h
      rcases h with h | h
      · exact Or.inl (h ▸ List.mem_cons_self _ _)
      · rcases ih h with h3 | h3
        · exact Or.inl (List.mem_cons_of_mem _ h3)
        · exact Or.inr h3

theorem nodup_dkeys_dinsert {α : Type} {d : List (String × α)}
    (h : (dkeys d).Nodup) (k : String) (v : α) : (dkeys (dinsert d k v)).Nodup := by
  rw [dkeys_dinsert]
  by_cases hm : k ∈ dkeys d
  · simpa [hm] using h
  · simp only [if_neg hm]
    exact List.Nodup.append h (List.nodup_singleton k) (by simpa using hm)

theorem dupdate_nil {α : Type} (d : List (String × α)) : dupdate d [] = d := rfl

theorem dupdate_cons {α : Type} (d : List (String × α)) (p : String × α)
    (m : List (String × α)) : dupdate d (p :: m) = dupdate (dinsert d p.1 p.2) m := rfl

theorem dupdate_singleton {α : Type} (d : List (String × α)) (k : String) (v : α) :
    dupdate d [(k, v)] = dinsert d k v := rfl

theorem dfind?_dupdate_of_none {α : Type} (d m : List (String × α)) (k : String)
    (h : dfind? m k = none) : dfind? (dupdate d m) k = dfind? d k := by
  induction m generalizing d with
  | nil => rfl
  | cons p rest ih =>
    by_cases h2 : p.1 = k
    · simp [dfind?, h2] at h
    · simp only [dfind?, if_neg h2] at h
      rw [dupdate_cons, ih _ h, dfind?_dinsert_ne _ _ _ _ (Ne.symm h2)]

theorem dfind?_dupdate_of_some {α : Type} (d m : List (String × α)) (k : String) (v : α)
    (hm : (dkeys m).Nodup) (h : dfind? m k = some v) :
    dfind? (dupdate d m) k = some v := by
  induction m generalizing d with
  | nil => simp [dfind?] at h
  | cons p rest ih =>
    rw [dkeys_cons, List.nodup_cons] at hm
    by_cases h2 : p.1 = k
    · simp only [dfind?, if_pos h2, Option.some.injEq] at h
      rw [dupdate_cons, dfind?_dupdate_of_none _ _ _ (dfind?_eq_none_of_not_mem (h2 ▸ hm.1)),
        h2, h, dfind?_dinsert_self]
    · simp only [dfind?, if_neg h2] at h
      rw [dupdate_cons, ih _ hm.2 h]

theorem chainDict_nil : chainDict [] = [] := rfl

theorem chainDict_cons (m : Entry) (ms : List Entry) :
    chainDict (m :: ms) = dupdate (chainDict ms) m := by
  unfold chainDict
  rw [List.reverse_cons, List.foldl_append]
  rfl

theorem dfind?_chainDict (maps : List Entry) (k : String)
    (h : ∀ m ∈ maps, (dkeys m).Nodup) :
    dfind? (chainDict maps) k = chainLookup maps k := by
  induction maps with
  | nil => rfl
  | cons m ms ih =>
    rw [chainDict_cons]
    cases hdm : dfind? m k with
    | some v =>
      rw [dfind?_dupdate_of_some _ _ _ _ (h m (List.mem_cons_self _ _)) hdm]
      simp [chainLookup, hdm]
    | none =>
      rw [dfind?_dupdate_of_none _ _ _ hdm,
        ih (fun m' hm' => h m' (List.mem_cons_of_mem _ hm'))]
      simp [chainLookup, hdm]

/-! ### String lemmas -/

theorem strLower_data (s : String) : (strLower s).data = s.data.map Char.toLower := rfl

theorem strLower_eq_empty_iff (s : String) : strLower s = "" ↔ s = "" := by
  cases s with
  | mk data =>
    constructor
    · intro h
      have h2 : (strLower (String.mk data)).data = ("" : String).data := by rw [h]
      rw [strLower_data] at h2
      have h3 : data = [] := List.map_eq_nil_iff.mp h2
      rw [h3]
    · intro h
      rw [h]
      rfl

/-! ### Lemmas about the build pipeline -/

theorem mem_foldl_dinsert {α β : Type} (f : α → String) (g : α → β) (l : List α) :
    ∀ (acc : List (String × β)) (x : String × β),
      x ∈ l.foldl (fun a s => dinsert a (f s) (g s)) acc →
      x ∈ acc ∨ ∃ s ∈ l, x = (f s, g s) := by
  induction l with
  | nil => intro acc x h; exact Or.inl h
  | cons a rest ih =>
    intro acc x h
    rw [List.foldl_cons] at h
    rcases ih _ x h with h2 | ⟨s, hs, hx⟩
    · rcases mem_of_mem_dinsert h2 with h3 | h3
      · exact Or.inl h3
      · exact Or.inr ⟨a, List.mem_cons_self _ _, h3⟩
    · exact Or.inr ⟨s, List.mem_cons_of_mem _ hs, hx⟩

theorem nodup_dkeys_foldl_dinsert {α β : Type} (f : α → String) (g : α → β) (l : List α) :
    ∀ (acc : List (String × β)), (dkeys acc).Nodup →
      (dkeys (l.foldl (fun a s => dinsert a (f s) (g s)) acc)).Nodup := by
  induction l with
  | nil => intro acc h; exact h
  | cons a rest ih =>
    intro acc h
    rw [List.foldl_cons]
    exact ih _ (nodup_dkeys_dinsert h _ _)

theorem nodup_dkeys_stateEntryOf (rows : List RowRecord) (state : String) :
    (dkeys (stateEntryOf rows state)).Nodup := by
  unfold stateEntryOf
  apply nodup_dkeys_dinsert
  exact nodup_dkeys_foldl_dinsert (fun (r : RowRecord) => strLower r.city_name)
    (fun (r : RowRecord) => r.city_id)
    (rows.filter (fun r => r.state_name = some state)) [] (by simp [dkeys])

theorem dfind?_stateEntryOf_sentinel (rows : List RowRecord) (state : String) :
    dfind? (stateEntryOf rows state) (strLower state ++ "_state") = some "" := by
  unfold stateEntryOf
  exact dfind?_dinsert_self _ _ _

/-- City-search outcomes for two query names with the same lower-cased form
differ at most in the echoed name. -/
theorem eraseEcho_citySearch {n n' : String} (h : strLower n = strLower n') (d : Entry) :
    eraseEcho (citySearch n d) = eraseEcho (citySearch n' d) := by
  unfold citySearch
  rw [h]
  cases hdm : dfind? d (strLower n') <;> simp [eraseEcho]

/-- When the scope is defined (state absent or falsy, or a truthy state
whose lower-cased form is an exact key), the call is exactly the city search
over that scope. -/
theorem find_eq_citySearch (t : Table) (name country : String) (state : Option String)
    (scope : Entry) (hname : name ≠ "")
    (hscope : searchScope t country state = some scope) :
    find_osm_relation_id t name country state = citySearch name scope := by
  unfold searchScope at hscope
  unfold find_osm_relation_id
  rw [if_neg hname]
  cases hdc : dfind? t (strLower country) with
  | none =>
    simp only [hdc] at hscope
    exact Option.noConfusion hscope
  | some cd =>
    simp only [hdc] at hscope
    dsimp only
    cases state with
    | none =>
      simp only [Option.some.injEq] at hscope
      rw [hscope]
    | some s =>
      dsimp only
      by_cases hs0 : s = ""
      · simp only [if_pos hs0, Option.some.injEq] at hscope
        rw [if_pos hs0, hscope]
      · simp only [if_neg hs0] at hscope
        rw [if_neg hs0]
        cases hds : dfind? cd (strLower s) with
        | none => rw [hds] at hscope; exact Option.noConfusion hscope
        | some cites =>
          rw [hds] at hscope
          dsimp only
          rw [Option.some.injEq] at hscope
          rw [hscope]

/-! ### Concrete fixtures -/

def st_alpha : Entry := [("springfield", "111"), ("alpha_state", "")]

def st_beta : Entry := [("springfield", "222"), ("berlin", "333"), ("beta_state", "")]

def cd0 : CountryEntry := [("alpha", st_alpha), ("beta", st_beta)]

def t0 : Table := [("united states", cd0)]

def scope0 : Entry :=
  [("springfield", "111"), ("berlin", "333"), ("beta_state", ""), ("alpha_state", "")]

def tUS : Table :=
  [("united states", [("california", [("los angeles", "123456"), ("california_state", "")])])]

def rowsChina : List RowRecord := [⟨"China", some "Beijing", "Beijing", "912940"⟩]

def rowsUS2 : List RowRecord := [⟨"United States", some "Gamma", "Paris", "444"⟩]

def cdNew : CountryEntry := [("gamma", [("paris", "444"), ("gamma_state", "")])]

def rowsCn : List RowRecord :=
  [⟨"China", some "Beijing", "Beijing", "912940"⟩,
   ⟨"China", some "Beijing", "Beijing_state", "X"⟩]

def entryCn : Entry := [("beijing", "912940"), ("beijing_state", "")]

def cdCn : CountryEntry := [("beijing", entryCn)]

/-! ### Claims -/

/-- C1: for a table, a country in the table, a non-empty name, and a
provided non-empty state whose lower-cased form is not an exact state key of
the country: if at least one state key starts with `state.lower()`, the call
returns `Suggestions` over exactly those state names and never reaches the
city search; otherwise it fails with `StateNotFound`. -/
theorem C1_state_prefix_branch (t : Table) (name country s : String)
    (country_dict : CountryEntry) (hname : name ≠ "")
    (hc : dfind? t (strLower country) = some country_dict) (hs : s ≠ "")
    (hmiss : dfind? country_dict (strLower s) = none) :
    find_osm_relation_id t name country (some s) =
      (if ((dkeys country_dict).filter (fun k => startswith k (strLower s))).isEmpty
        then ResolveResult.errStateNotFound
        else ResolveResult.suggestStates
          ((dkeys country_dict).filter (fun k => startswith k (strLower s)))) := by
  unfold find_osm_relation_id
  simp only [if_neg hname, hc, if_neg hs, hmiss]

/-- C1 witness: in `t0`, state "al" is not a key of the country but "alpha"
starts with it, so the call suggests the state name "alpha". -/
theorem C1_state_prefix_branch_witness :
    find_osm_relation_id t0 "x" "united states" (some "al") =
      ResolveResult.suggestStates ["alpha"] := by
  have h := C1_state_prefix_branch t0 "x" "united states" "al" cd0 (by decide) (by decide)
    (by decide) (by decide)
  rw [h]
  decide

/-- C2: with state absent or an exact key, an exact hit of `name.lower()` in
the search scope always yields the stored identifier, never suggestions. -/
theorem C2_exact_match_precedence (t : Table) (name country : String)
    (state : Option String) (scope : Entry) (v : String) (hname : name ≠ "")
    (hscope : searchScope t country state = some scope)
    (hv : dfind? scope (strLower name) = some v) :
    find_osm_relation_id t name country state = ResolveResult.found name v := by
  rw [find_eq_citySearch t name country state scope hname hscope]
  unfold citySearch
  rw [hv]

/-- C2 witness: "springfield" is an exact key of state "alpha" in `t0`
(identifier "111"). -/
theorem C2_exact_match_precedence_witness :
    find_osm_relation_id t0 "springfield" "united states" (some "alpha") =
      ResolveResult.found "springfield" "111" :=
  C2_exact_match_precedence t0 "springfield" "united states" (some "alpha") st_alpha "111"
    (by decide) (by decide) (by decide)

/-- C3: when the city search runs and `name.lower()` is not an exact scope
key, the result is `CityNotFound` when no scope key starts with
`name.lower()`, and otherwise `Suggestions` whose members are exactly the
scope keys starting with `name.lower()`, each paired with its stored
identifier. -/
theorem C3_prefix_fallback_complete (t : Table) (name country : String)
    (state : Option String) (scope : Entry) (hname : name ≠ "")
    (hscope : searchScope t country state = some scope)
    (hmiss : dfind? scope (strLower name) = none) :
    (find_osm_relation_id t name country state =
      (if ((dkeys scope).filter (fun k => startswith k (strLower name))).isEmpty
        then ResolveResult.errCityNotFound
        else ResolveResult.suggestCities
          (((dkeys scope).filter (fun k => startswith k (strLower name))).filterMap
            (fun k => (dfind? scope k).map (fun v => (k, v)))))) ∧
    ∀ k v, (k, v) ∈ ((dkeys scope).filter (fun k => startswith k (strLower name))).filterMap
        (fun k => (dfind? scope k).map (fun v => (k, v))) ↔
      (k ∈ dkeys scope ∧ startswith k (strLower name) = true ∧ dfind? scope k = some v) := by
  constructor
  · rw [find_eq_citySearch t name country state scope hname hscope]
    unfold citySearch
    rw [hmiss]
  · intro k v
    simp only [List.mem_filterMap, List.mem_filter, Option.map_eq_some']
    constructor
    · rintro ⟨a, ⟨hak, has⟩, w, hw, hpair⟩
      cases hpair
      exact ⟨hak, has, hw⟩
    · rintro ⟨hk, hsw, hkv⟩
      exact ⟨k, ⟨hk, hsw⟩, v, hkv, rfl⟩

/-- C3 witness: in the all-states scope of `t0`, query "ber" has no exact
key and exactly one prefix match, "berlin" with identifier "333". -/
theorem C3_prefix_fallback_complete_witness :
    find_osm_relation_id t0 "ber" "united states" none =
      ResolveResult.suggestCities [("berlin", "333")] := by
  have h := (C3_prefix_fallback_complete t0 "ber" "united states" none scope0 (by decide)
    (by decide) (by decide)).1
  rw [h]
  decide

/-- C4 counterexample: in `t0` the country has states "alpha" then "beta";
both hold the city key "springfield" ("111" in alpha, "222" in beta, so the
last state in iteration order stores "222"), yet the no-state search returns
"111" — `dict(ChainMap(...))` gives the FIRST state priority, refuting
last-state-wins. -/
theorem C4_counterexample :
    dfind? t0 "united states" = some cd0 ∧
    cd0.map Prod.snd = [st_alpha, st_beta] ∧
    dfind? st_beta "springfield" = some "222" ∧
    find_osm_relation_id t0 "springfield" "united states" none =
      ResolveResult.found "springfield" "111" ∧
    ResolveResult.found "springfield" "111" ≠ ResolveResult.found "springfield" "222" := by
  refine ⟨by decide, by decide, by decide, by decide, by decide⟩

/-- C4 amended: with state not given, the search scope is the union of all
of the country's state dicts, and for a duplicated city key the identifier
kept is the one from the FIRST state in table iteration order (the earliest
`ChainMap` map wins). -/
theorem C4_union_first_state_wins (t : Table) (name country : String)
    (country_dict : CountryEntry) (v : String) (hname : name ≠ "")
    (hc : dfind? t (strLower country) = some country_dict)
    (hnodup : ∀ m ∈ country_dict.map Prod.snd, (dkeys m).Nodup)
    (hv : chainLookup (country_dict.map Prod.snd) (strLower name) = some v) :
    find_osm_relation_id t name country none = ResolveResult.found name v := by
  have hscope : searchScope t country none =
      some (chainDict (country_dict.map Prod.snd)) := by
    unfold searchScope
    simp only [hc]
  rw [find_eq_citySearch t name country none _ hname hscope]
  unfold citySearch
  rw [dfind?_chainDict _ _ hnodup, hv]

/-- C4 witness: the first state of `t0` stores "111" for "springfield", and
the no-state search returns it. -/
theorem C4_union_first_state_wins_witness :
    find_osm_relation_id t0 "springfield" "united states" none =
      ResolveResult.found "springfield" "111" :=
  C4_union_first_state_wins t0 "springfield" "united states" cd0 "111" (by decide) (by decide)
    (by decide) (by decide)

/-- C5 counterexample: merging rows whose country is cased "China" yields
the table key "china"; `available_country` reports the lower-cased key, not
the original casing. -/
theorem C5_counterexample :
    (rowsChina.map (fun r => r.country_name)) = ["China"] ∧
    available_country (update_country [] rowsChina) = ["china"] ∧
    "China" ∉ available_country (update_country [] rowsChina) := by
  refine ⟨by decide, by decide, by decide⟩

/-- C5 amended: `available_country` returns the table's top-level keys, one
per entry in stable insertion order; a merge stores the LOWER-cased country
name, leaving the key list unchanged when that key already exists and
appending it at the end otherwise. -/
theorem C5_lowercased_country_keys (t : Table) (r : RowRecord) (rest : List RowRecord) :
    available_country t = dkeys t ∧
    available_country (update_country t (r :: rest)) =
      (if strLower r.country_name ∈ dkeys t then dkeys t
       else dkeys t ++ [strLower r.country_name]) := by
  refine ⟨rfl, ?_⟩
  unfold update_country read_country_rid
  dsimp only
  rw [dupdate_singleton]
  unfold available_country
  rw [dkeys_dinsert]

/-- C6 counterexample: the string returned on an exact hit interpolates the
query name as given (`f"Relation id: {name}: ..."`, line 215), so the two
casings of the same query return different values. -/
theorem C6_counterexample :
    find_osm_relation_id tUS "Los Angeles" "United States" (some "California") ≠
      find_osm_relation_id tUS "los angeles" "united states" (some "california") := by
  decide

/-- C6 amended: changing only the letter case of name, country and state
never changes which branch is taken, the identifier found, or any suggestion
list — the results are identical once the original-cased query name echoed
inside the found-message is disregarded. -/
theorem C6_case_insensitive_up_to_echo (t : Table) (n n' c c' : String)
    (s s' : Option String) (hn : strLower n = strLower n')
    (hc : strLower c = strLower c') (hs : s.map strLower = s'.map strLower) :
    eraseEcho (find_osm_relation_id t n c s) =
      eraseEcho (find_osm_relation_id t n' c' s') := by
  have hn0 : (n = "") ↔ (n' = "") := by
    rw [← strLower_eq_empty_iff n, ← strLower_eq_empty_iff n', hn]
  unfold find_osm_relation_id
  by_cases h0 : n = ""
  · rw [if_pos h0, if_pos (hn0.mp h0)]
  · have h0' : n' ≠ "" := fun hh => h0 (hn0.mpr hh)
    rw [if_neg h0, if_neg h0', hc]
    cases hdc : dfind? t (strLower c') with
    | none => rfl
    | some cd =>
      dsimp only
      cases s with
      | none =>
        cases s' with
        | none => exact eraseEcho_citySearch hn _
        | some x' => exact Option.noConfusion hs
      | some x =>
        cases s' with
        | none => exact Option.noConfusion hs
        | some x' =>
          simp only [Option.map_some', Option.some.injEq] at hs
          have hxe : (x = "") ↔ (x' = "") := by
            rw [← strLower_eq_empty_iff x, ← strLower_eq_empty_iff x', hs]
          dsimp only
          by_cases hx0 : x = ""
          · rw [if_pos hx0, if_pos (hxe.mp hx0)]
            exact eraseEcho_citySearch hn _
          · rw [if_neg hx0, if_neg (fun hh => hx0 (hxe.mpr hh)), hs]
            cases hds : dfind? cd (strLower x') with
            | none => rfl
            | some cites =>
              dsimp only
              exact eraseEcho_citySearch hn _

/-- C6 witness: the two casings of the Los Angeles query agree once the
echoed query name is disregarded. -/
theorem C6_case_insensitive_up_to_echo_witness :
    eraseEcho (find_osm_relation_id tUS "Los Angeles" "United States" (some "California")) =
      eraseEcho (find_osm_relation_id tUS "los angeles" "united states" (some "california")) :=
  C6_case_insensitive_up_to_echo tUS "Los Angeles" "los angeles" "United States"
    "united states" (some "California") (some "california") (by decide) (by decide) (by decide)

/-- C7 counterexample: a blank (whitespace-only) name is truthy in Python,
so `" "` is not rejected as an empty query; in `t0` it falls through to the
city search and fails with `CityNotFound` instead. -/
theorem C7_counterexample :
    find_osm_relation_id t0 " " "united states" none = ResolveResult.errCityNotFound ∧
    ResolveResult.errCityNotFound ≠ ResolveResult.errEmptyName := by
  refine ⟨by decide, by decide⟩

/-- C7 amended: only the EMPTY name (not a blank one) fails with
`EmptyQuery`, regardless of country and state and before any lookup; and a
non-empty name with a country whose lower-cased form is not a table key
fails with `CountryNotFound` regardless of casing. -/
theorem C7_empty_query_and_country_not_found (t : Table) (name c : String)
    (s : Option String) :
    find_osm_relation_id t "" c s = ResolveResult.errEmptyName ∧
    (name ≠ "" → dfind? t (strLower c) = none →
      find_osm_relation_id t name c s = ResolveResult.errCountryNotFound) := by
  constructor
  · rfl
  · intro hname hc
    unfold find_osm_relation_id
    rw [if_neg hname, hc]

/-- C7 witness: at the empty name the call fails with `EmptyQuery`, and at
the unknown country "Nowhereland" it fails with `CountryNotFound`. -/
theorem C7_empty_query_and_country_not_found_witness :
    find_osm_relation_id t0 "" "Nowhereland" none = ResolveResult.errEmptyName ∧
    find_osm_relation_id t0 "x" "Nowhereland" none = ResolveResult.errCountryNotFound :=
  ⟨(C7_empty_query_and_country_not_found t0 "x" "Nowhereland" none).1,
   (C7_empty_query_and_country_not_found t0 "x" "Nowhereland" none).2 (by decide) (by decide)⟩

/-- C8: merging an imported country fully replaces that country's table
entry with the newly built one (so nothing of the old entry survives at that
key), and every other country's entry is untouched. -/
theorem C8_merge_fully_replaces (t : Table) (r : RowRecord) (rest : List RowRecord)
    (cname : String) (country_entry : CountryEntry)
    (hread : read_country_rid (r :: rest) = some (cname, country_entry)) :
    dfind? (update_country t (r :: rest)) (strLower cname) = some country_entry ∧
    ∀ k, k ≠ strLower cname →
      dfind? (update_country t (r :: rest)) k = dfind? t k := by
  unfold update_country
  rw [hread]
  dsimp only
  rw [dupdate_singleton]
  exact ⟨dfind?_dinsert_self t _ _, fun k hk => dfind?_dinsert_ne t _ _ k hk⟩

/-- C8 witness: re-importing "United States" from `rowsUS2` replaces the
whole `cd0` entry of `t0` by `cdNew` and leaves the lookup of any other key
unchanged. -/
theorem C8_merge_fully_replaces_witness :
    dfind? (update_country t0 rowsUS2) (strLower "United States") = some cdNew ∧
    dfind? (update_country t0 rowsUS2) "china" = dfind? t0 "china" :=
  ⟨(C8_merge_fully_replaces t0 ⟨"United States", some "Gamma", "Paris", "444"⟩ []
      "United States" cdNew (by decide)).1,
   (C8_merge_fully_replaces t0 ⟨"United States", some "Gamma", "Paris", "444"⟩ []
      "United States" cdNew (by decide)).2 "china" (by decide)⟩

/-- C9: every state entry built by `read_country_rid` holds the sentinel key
`"<state-lower>_state"` mapped to the empty string, exactly once — the
sentinel is assigned after the city pairs, so it holds `""` even when an
input row's lower-cased city name equals the sentinel key. -/
theorem C9_sentinel_entry (rows : List RowRecord) (cname : String)
    (country_entry : CountryEntry) (k : String) (e : Entry)
    (hread : read_country_rid rows = some (cname, country_entry))
    (hk : dfind? country_entry k = some e) :
    dfind? e (k ++ "_state") = some "" ∧ (dkeys e).count (k ++ "_state") = 1 := by
  cases rows with
  | nil => exact Option.noConfusion hread
  | cons r rest =>
    unfold read_country_rid at hread
    rw [Option.some.injEq, Prod.mk.injEq] at hread
    rw [← hread.2] at hk
    have hmem := mem_of_dfind?_eq_some hk
    rcases mem_foldl_dinsert (fun s => strLower s) (fun s => stateEntryOf (r :: rest) s)
        (statesOf (r :: rest)) [] (k, e) hmem with h | ⟨s, _, hx⟩
    · exact absurd h (List.not_mem_nil _)
    · rw [Prod.mk.injEq] at hx
      obtain ⟨hks, hes⟩ := hx
      subst hes
      subst hks
      refine ⟨dfind?_stateEntryOf_sentinel _ _, ?_⟩
      have hnd := nodup_dkeys_stateEntryOf (r :: rest) s
      have hm : strLower s ++ "_state" ∈ dkeys (stateEntryOf (r :: rest) s) :=
        mem_dkeys_of_mem (mem_of_dfind?_eq_some (dfind?_stateEntryOf_sentinel (r :: rest) s))
      exact List.count_eq_one_of_mem hnd hm

/-- C9 witness: in `rowsCn` a row's city name "Beijing_state" collides with
the sentinel key, yet the built state entry maps "beijing_state" to `""`,
and holds that key exactly once. -/
theorem C9_sentinel_entry_witness :
    dfind? entryCn ("beijing" ++ "_state") = some "" ∧
    (dkeys entryCn).count ("beijing" ++ "_state") = 1 :=
  C9_sentinel_entry rowsCn "China" cdCn "beijing" entryCn (by decide) (by decide)

/-- C10: the `find_osm_relation_id` method only reads the finder's table, so
on every path — found, either suggestion list, or any of the four errors —
the post-state equals the pre-state. -/
theorem C10_resolve_is_read_only (st : Finder) (name country : String)
    (state : Option String) :
    (find_osm_relation_id_method st name country state).2 = st := rfl

end OSMRid
